import Mathlib

/-!
Verification development for the résumé/job matching engine
(backend services: `ai_service`, `recommendation_service`, `resume_fit_service`).

Numbers are modelled exactly: Python floats become real numbers (`ℝ`) where
irrational square roots occur, and exact rationals (`ℚ`) / integers (`ℤ`)
elsewhere.  Fallible code returns `Except PyErr`.
-/

namespace JobAssist

/-- Python `str.strip()`: drop leading and trailing whitespace. -/
def pyStrip (s : String) : String :=
  ⟨((s.data.dropWhile Char.isWhitespace).reverse.dropWhile
      Char.isWhitespace).reverse⟩

/-- Python `str.lower()`. -/
def pyLower (s : String) : String :=
  ⟨s.data.map Char.toLower⟩

/-- Lexicographic strict comparison on code points, as Python compares
strings. -/
def charListLtB : List Char → List Char → Bool
  | [], [] => false
  | [], _ :: _ => true
  | _ :: _, [] => false
  | a :: as, b :: bs =>
      if a.val < b.val then true
      else if b.val < a.val then false
      else charListLtB as bs

/-- Python `a <= b` on strings (used through `sorted`). -/
def pyStrLe (a b : String) : Bool :=
  !(charListLtB b.data a.data)

/-- Python `sorted` on strings: a stable sort by `pyStrLe` (code-point
lexicographic order). -/
def pySortStrings (l : List String) : List String :=
  l.insertionSort fun a b => pyStrLe a b = true

/-- Python's built-in `round` to the nearest integer, ties to even
(banker's rounding), on exact rationals. -/
def pyRoundQ (x : ℚ) : ℤ :=
  if Int.fract x < 1/2 then ⌊x⌋
  else if 1/2 < Int.fract x then ⌊x⌋ + 1
  else if ⌊x⌋ % 2 = 0 then ⌊x⌋ else ⌊x⌋ + 1

/-- Python's built-in `round` to the nearest integer, ties to even
(banker's rounding), on real numbers. -/
noncomputable def pyRoundR (x : ℝ) : ℤ :=
  if Int.fract x < 1/2 then ⌊x⌋
  else if 1/2 < Int.fract x then ⌊x⌋ + 1
  else if ⌊x⌋ % 2 = 0 then ⌊x⌋ else ⌊x⌋ + 1

/-- Python `round(x, 2)`; the result is an exact multiple of 1/100. -/
noncomputable def pyRound2R (x : ℝ) : ℚ :=
  (pyRoundR (100 * x) : ℚ) / 100

/-- Python `round(x, 3)` as used by `_clean_similarity`. -/
noncomputable def round3R (x : ℝ) : ℝ :=
  (pyRoundR (1000 * x) : ℝ) / 1000

/-- `_clean_similarity`: `None` stays `None`, otherwise round to 3 decimals. -/
noncomputable def cleanSimilarity (v : Option ℝ) : Option ℝ :=
  v.map round3R

/-- Python `int(x)`: truncation toward zero. -/
noncomputable def pyTrunc (x : ℝ) : ℤ :=
  if 0 ≤ x then ⌊x⌋ else -⌊-x⌋

/-- `sum(x * y for x, y in zip(a, b))` from `_cosine_similarity`. -/
def dotList (a b : List ℝ) : ℝ :=
  (List.zipWith (· * ·) a b).sum

/-- `sum(x * x for x in a)`, the squared Euclidean norm. -/
def sqNorm (a : List ℝ) : ℝ :=
  (a.map (fun x => x * x)).sum

/-- `math.sqrt(sum(x * x for x in a))` from `_cosine_similarity`. -/
noncomputable def normList (a : List ℝ) : ℝ :=
  Real.sqrt (sqNorm a)

/-- `_cosine_similarity` from `ai_service.py`: returns `0.0` when either
norm is zero, otherwise `dot / (norm_a * norm_b)`. -/
noncomputable def cosineSimilarity (a b : List ℝ) : ℝ :=
  if normList a = 0 ∨ normList b = 0 then 0
  else dotList a b / (normList a * normList b)

lemma sqNorm_nonneg (a : List ℝ) : 0 ≤ sqNorm a := by
  refine List.sum_nonneg ?_
  intro x hx
  rcases List.mem_map.1 hx with ⟨y, _, rfl⟩
  exact mul_self_nonneg y

lemma dotList_comm (a b : List ℝ) : dotList a b = dotList b a := by
  unfold dotList
  rw [List.zipWith_comm_of_comm]
  intro x y
  exact mul_comm x y

lemma dotList_self (a : List ℝ) : dotList a a = sqNorm a := by
  induction a with
  | nil => rfl
  | cons x xs ih =>
      simp only [dotList, sqNorm, List.zipWith_cons_cons, List.map_cons, List.sum_cons] at *
      rw [ih]

lemma normList_sq (a : List ℝ) : normList a * normList a = sqNorm a :=
  Real.mul_self_sqrt (sqNorm_nonneg a)

lemma normList_zero_of_all_zero (b : List ℝ) (h : ∀ x ∈ b, x = 0) :
    normList b = 0 := by
  have hs : sqNorm b = 0 := by
    unfold sqNorm
    refine List.sum_eq_zero ?_
    intro x hx
    rcases List.mem_map.1 hx with ⟨y, hy, rfl⟩
    rw [h y hy, mul_zero]
  rw [normList, hs, Real.sqrt_zero]

lemma cosineSimilarity_self (a : List ℝ) (h : normList a ≠ 0) :
    cosineSimilarity a a = 1 := by
  have hs : sqNorm a ≠ 0 := by
    intro h0
    exact h (by rw [normList, h0, Real.sqrt_zero])
  rw [cosineSimilarity, if_neg (by push_neg; exact ⟨h, h⟩), dotList_self,
    normList_sq]
  exact div_self hs

lemma cosineSimilarity_comm (a b : List ℝ) :
    cosineSimilarity a b = cosineSimilarity b a := by
  unfold cosineSimilarity
  by_cases h : normList a = 0 ∨ normList b = 0
  · rw [if_pos h, if_pos h.symm]
  · rw [if_neg h, if_neg (fun hc => h hc.symm), dotList_comm,
      mul_comm (normList b) (normList a)]

/-- C7: `_cosine_similarity` is a total function (never raises); it returns
`0.0` whenever either input vector has zero norm — in particular
`sim(a, 0) = 0` for every `a` — it is symmetric, and `sim(a, a) = 1` for
every vector `a` with nonzero norm. -/
theorem claim7_cosine_similarity_props :
    (∀ a b : List ℝ, normList a = 0 ∨ normList b = 0 → cosineSimilarity a b = 0)
    ∧ (∀ a b : List ℝ, (∀ x ∈ b, x = 0) → cosineSimilarity a b = 0)
    ∧ (∀ a b : List ℝ, cosineSimilarity a b = cosineSimilarity b a)
    ∧ (∀ a : List ℝ, normList a ≠ 0 → cosineSimilarity a a = 1) := by
  refine ⟨?_, ?_, cosineSimilarity_comm, cosineSimilarity_self⟩
  · intro a b h
    rw [cosineSimilarity, if_pos h]
  · intro a b h
    rw [cosineSimilarity, if_pos (Or.inr (normList_zero_of_all_zero b h))]

theorem claim7_cosine_similarity_props_witness :
    cosineSimilarity [(3 : ℝ), 4] [0, 0] = 0
    ∧ cosineSimilarity [(3 : ℝ), 4] [4, 3] = cosineSimilarity [4, 3] [(3 : ℝ), 4]
    ∧ cosineSimilarity [(3 : ℝ), 4] [3, 4] = 1 := by
  refine ⟨claim7_cosine_similarity_props.2.1 _ _ ?_,
    claim7_cosine_similarity_props.2.2.1 _ _,
    claim7_cosine_similarity_props.2.2.2 _ ?_⟩
  · intro x hx
    simpa using hx
  · have h25 : sqNorm [(3 : ℝ), 4] = 25 := by
      norm_num [sqNorm]
    rw [normList, h25]
    exact ne_of_gt (Real.sqrt_pos.2 (by norm_num))

/-- Python exceptions surfaced by the engine. -/
inductive PyErr where
  | attributeError (name : String)
  | valueError (msg : String)
  | indexError
  | providerError (msg : String)
deriving Repr, DecidableEq

/-- One raw requirement dict as fed to `_score_requirements`: the value of
its label field (`name` / `description` / `term`), its `critical` flag and
its `notes`. -/
structure RawRequirement where
  labelField : String
  critical : Bool
  notes : String
deriving Repr, DecidableEq

/-- A cleaned requirement (non-empty trimmed label). -/
structure CleanRequirement where
  label : String
  critical : Bool
  notes : String
deriving Repr, DecidableEq

/-- The `matched` / `missing` payload dicts of `_score_requirements`.
`matched_text` is absent (`none`) on missing entries. -/
structure MatchEntry where
  requirement : String
  critical : Bool
  matched_text : Option String
  similarity : Option ℝ

/-- The per-dimension result dict of `_score_requirements`. -/
structure DimensionResult where
  score : ℤ
  applicable : Bool
  matched : List MatchEntry
  missing : List MatchEntry
  weight : ℚ

/-- The requirement-cleaning loop at the top of `_score_requirements`:
strip the label, drop the item when the stripped label is empty. -/
def cleanedRequirements (requirements : List RawRequirement) :
    List CleanRequirement :=
  requirements.filterMap fun item =>
    if pyStrip item.labelField = "" then none
    else some ⟨pyStrip item.labelField, item.critical, item.notes⟩

/-- `[text.strip() for text in evidence_texts if str(text).strip()]`. -/
def cleanedEvidence (evidenceTexts : List String) : List String :=
  evidenceTexts.filterMap fun t =>
    if pyStrip t = "" then none else some (pyStrip t)

/-- `2 if critical else 1` for a cleaned requirement. -/
def reqWeight (item : CleanRequirement) : ℕ :=
  if item.critical then 2 else 1

/-- `sum(2 if item["critical"] else 1 for item in cleaned_requirements)`. -/
def totalReqWeight (items : List CleanRequirement) : ℕ :=
  (items.map reqWeight).sum

/-- `2 if item.get("critical") else 1` for a matched payload dict. -/
def entryWeight (e : MatchEntry) : ℕ :=
  if e.critical then 2 else 1

/-- `sum(2 if item.get("critical") else 1 for item in matched)`. -/
def totalEntryWeight (es : List MatchEntry) : ℕ :=
  (es.map entryWeight).sum

/-- The inner evidence loop of `_score_requirements`: walk the evidence
embeddings (indexing the snippet texts, `IndexError` on overrun), keeping
the best similarity seen so far; only a strictly larger similarity updates
the running best match. -/
noncomputable def bestFold (item : CleanRequirement) (reqVec : List ℝ)
    (evidence : List String) :
    List (List ℝ) → ℕ → Option MatchEntry → ℝ →
      Except PyErr (Option MatchEntry × ℝ)
  | [], _, best, bestSim => .ok (best, bestSim)
  | evVec :: rest, idx, best, bestSim =>
      match evidence.get? idx with
      | none => .error .indexError
      | some text =>
          let similarity := cosineSimilarity reqVec evVec
          if bestSim < similarity then
            bestFold item reqVec evidence rest (idx + 1)
              (some ⟨item.label, item.critical, some text,
                cleanSimilarity (some similarity)⟩)
              similarity
          else
            bestFold item reqVec evidence rest (idx + 1) best bestSim

/-- Classification of one requirement: matched (`Sum.inl`) when a best match
exists with similarity at or above the threshold, otherwise missing
(`Sum.inr`) with the best similarity recorded when it exceeded the `-1.0`
sentinel. -/
noncomputable def classifyRequirement (threshold : ℝ)
    (item : CleanRequirement) (reqVec : List ℝ) (evidence : List String)
    (evVecs : List (List ℝ)) : Except PyErr (MatchEntry ⊕ MatchEntry) := do
  let (best, bestSim) ← bestFold item reqVec evidence evVecs 0 none (-1)
  match best with
  | some entry =>
      if threshold ≤ bestSim then
        .ok (.inl entry)
      else
        .ok (.inr ⟨item.label, item.critical, none,
          cleanSimilarity (if -1 < bestSim then some bestSim else none)⟩)
  | none =>
      .ok (.inr ⟨item.label, item.critical, none,
        cleanSimilarity (if -1 < bestSim then some bestSim else none)⟩)

/-- The outer requirement loop of `_score_requirements`, pairing each cleaned
requirement with its embedding (`IndexError` when the provider returned too
few vectors) and splitting the results into `matched` and `missing`. -/
noncomputable def classifyAll (threshold : ℝ) (evidence : List String)
    (evVecs : List (List ℝ)) :
    List CleanRequirement → List (List ℝ) →
      Except PyErr (List MatchEntry × List MatchEntry)
  | [], _ => .ok ([], [])
  | _ :: _, [] => .error .indexError
  | item :: rest, reqVec :: reqVecsRest => do
      let one ← classifyRequirement threshold item reqVec evidence evVecs
      let (m, mi) ← classifyAll threshold evidence evVecs rest reqVecsRest
      match one with
      | .inl e => .ok (e :: m, mi)
      | .inr e => .ok (m, e :: mi)

/-- `_score_requirements` from `ai_service.py`, parametrised by the batched
embedding provider (`_batched_embeddings`), which may fail. -/
noncomputable def scoreRequirements
    (embed : List String → Except PyErr (List (List ℝ)))
    (requirements : List RawRequirement) (evidenceTexts : List String)
    (threshold : ℝ) : Except PyErr DimensionResult :=
  let cleaned := cleanedRequirements requirements
  if cleaned = [] then
    .ok ⟨100, false, [], [], 0⟩
  else
    let evidence := cleanedEvidence evidenceTexts
    if evidence = [] then
      .ok ⟨0, true, [],
        cleaned.map fun item => ⟨item.label, item.critical, none, none⟩,
        (totalReqWeight cleaned : ℚ)⟩
    else do
      let embeddings ← embed ((cleaned.map fun item => item.label) ++ evidence)
      let reqCount := cleaned.length
      let requirementEmbeddings := embeddings.take reqCount
      let evidenceEmbeddings := embeddings.drop reqCount
      let (matched, missing) ←
        classifyAll threshold evidence evidenceEmbeddings cleaned
          requirementEmbeddings
      let totalWeight := totalReqWeight cleaned
      let matchedWeight := totalEntryWeight matched
      let score : ℤ :=
        if totalWeight ≠ 0 then
          pyRoundQ (100 * (matchedWeight : ℚ) / (totalWeight : ℚ))
        else 0
      .ok ⟨score, true, matched, missing, (totalWeight : ℚ)⟩

lemma totalReqWeight_pos {items : List CleanRequirement} (h : items ≠ []) :
    0 < totalReqWeight items := by
  cases items with
  | nil => exact absurd rfl h
  | cons a l =>
      have ha : 1 ≤ reqWeight a := by
        unfold reqWeight
        split <;> norm_num
      simp only [totalReqWeight, List.map_cons, List.sum_cons]
      omega

/-- C4: with no non-empty requirement label left after trimming,
`_score_requirements` returns `applicable = false, score = 100, weight = 0`
with empty `matched` and `missing`; with requirements remaining but no
(trimmed) evidence, it returns `applicable = true, score = 0`, the full
requirement weight, an empty `matched` list and every remaining requirement
in `missing` with `similarity = none`. -/
theorem claim4_degenerate_dimension_scoring
    (embed : List String → Except PyErr (List (List ℝ)))
    (requirements : List RawRequirement) (evidenceTexts : List String)
    (threshold : ℝ) :
    (cleanedRequirements requirements = [] →
      scoreRequirements embed requirements evidenceTexts threshold =
        .ok ⟨100, false, [], [], 0⟩)
    ∧ (cleanedRequirements requirements ≠ [] →
      cleanedEvidence evidenceTexts = [] →
      scoreRequirements embed requirements evidenceTexts threshold =
        .ok ⟨0, true, [],
          (cleanedRequirements requirements).map
            fun item => ⟨item.label, item.critical, none, none⟩,
          (totalReqWeight (cleanedRequirements requirements) : ℚ)⟩) := by
  constructor
  · intro h
    simp only [scoreRequirements]
    rw [if_pos h]
  · intro h1 h2
    simp only [scoreRequirements]
    rw [if_neg h1, if_pos h2]

theorem claim4_degenerate_dimension_scoring_witness :
    scoreRequirements (fun _ => .ok []) [⟨"  ", true, ""⟩] ["x"] (72/100) =
      .ok ⟨100, false, [], [], 0⟩
    ∧ scoreRequirements (fun _ => .ok []) [⟨"Python", true, ""⟩] [" "]
        (72/100) =
      .ok ⟨0, true, [], [⟨"Python", true, none, none⟩], 2⟩ := by
  constructor
  · exact (claim4_degenerate_dimension_scoring (fun _ => .ok [])
      [⟨"  ", true, ""⟩] ["x"] (72/100)).1 (by decide)
  · exact (claim4_degenerate_dimension_scoring (fun _ => .ok [])
      [⟨"Python", true, ""⟩] [" "] (72/100)).2 (by decide) (by decide)

/-- C5: on every non-degenerate dimension-scoring input (non-empty cleaned
requirements and non-empty cleaned evidence) that returns a result, the
returned score is `round(100 * matched_weight / total_weight)` with weight
2 for critical and 1 for non-critical requirements. -/
theorem claim5_weighted_score_formula
    (embed : List String → Except PyErr (List (List ℝ)))
    (requirements : List RawRequirement) (evidenceTexts : List String)
    (threshold : ℝ) (r : DimensionResult)
    (hreq : cleanedRequirements requirements ≠ [])
    (hev : cleanedEvidence evidenceTexts ≠ [])
    (hok : scoreRequirements embed requirements evidenceTexts threshold =
      .ok r) :
    r.score = pyRoundQ (100 * (totalEntryWeight r.matched : ℚ)
      / (totalReqWeight (cleanedRequirements requirements) : ℚ)) := by
  simp only [scoreRequirements] at hok
  rw [if_neg hreq, if_neg hev] at hok
  cases hembed : embed
      (((cleanedRequirements requirements).map fun item => item.label)
        ++ cleanedEvidence evidenceTexts) with
  | error e =>
      rw [hembed] at hok
      simp only [Bind.bind, Except.bind] at hok
      exact absurd hok (by simp)
  | ok embeddings =>
      rw [hembed] at hok
      simp only [Bind.bind, Except.bind] at hok
      cases hclass : classifyAll threshold (cleanedEvidence evidenceTexts)
          (embeddings.drop (cleanedRequirements requirements).length)
          (cleanedRequirements requirements)
          (embeddings.take (cleanedRequirements requirements).length) with
      | error e =>
          rw [hclass] at hok
          exact absurd hok (by simp)
      | ok p =>
          rw [hclass] at hok
          obtain ⟨m, mi⟩ := p
          simp only [Except.ok.injEq] at hok
          rw [← hok]
          have hw : totalReqWeight (cleanedRequirements requirements) ≠ 0 :=
            (totalReqWeight_pos hreq).ne'
          simp only [if_pos hw]

lemma pyRoundR_intCast (n : ℤ) : pyRoundR (n : ℝ) = n := by
  unfold pyRoundR
  rw [Int.fract_intCast]
  norm_num

lemma round3R_one : round3R 1 = 1 := by
  have h : (1000 : ℝ) * 1 = ((1000 : ℤ) : ℝ) := by norm_num
  rw [round3R, h, pyRoundR_intCast]
  norm_num

lemma normList_single_one : normList [(1 : ℝ)] = 1 := by
  have h : sqNorm [(1 : ℝ)] = 1 := by norm_num [sqNorm]
  rw [normList, h, Real.sqrt_one]

lemma normList_single_negone : normList [(-1 : ℝ)] = 1 := by
  have h : sqNorm [(-1 : ℝ)] = 1 := by norm_num [sqNorm]
  rw [normList, h, Real.sqrt_one]

lemma cos_one_one : cosineSimilarity [(1 : ℝ)] [1] = 1 :=
  cosineSimilarity_self _ (by rw [normList_single_one]; norm_num)

lemma cos_negone_one : cosineSimilarity [(-1 : ℝ)] [1] = -1 := by
  have hne : ¬ (normList [(-1 : ℝ)] = 0 ∨ normList [(1 : ℝ)] = 0) := by
    simp [normList_single_negone, normList_single_one]
  rw [cosineSimilarity, if_neg hne, normList_single_negone,
    normList_single_one]
  norm_num [dotList, List.zipWith_cons_cons]

lemma pyRoundQ_200_3 : pyRoundQ (200/3) = 67 := by
  have hf : ⌊(200/3 : ℚ)⌋ = 66 := by
    rw [Int.floor_eq_iff]
    constructor <;> norm_num
  have hfr : Int.fract (200/3 : ℚ) = 2/3 := by
    rw [Int.fract, hf]
    norm_num
  unfold pyRoundQ
  rw [hfr, hf, if_neg (by norm_num), if_pos (by norm_num)]
  norm_num

/-- Embedding provider used for the concrete C5 run: `Req1` and the evidence
snippet embed to `[1]`, everything else to `[-1]`. -/
def embedW5 : List String → Except PyErr (List (List ℝ)) :=
  fun ts => .ok (ts.map fun t =>
    if t = "Req1" then [1] else if t = "Ev" then [1] else [-1])

lemma scoreRequirements_w5_eval :
    scoreRequirements embedW5 [⟨"Req1", true, ""⟩, ⟨"Req2", false, ""⟩]
      ["Ev"] (72/100) =
    .ok ⟨67, true, [⟨"Req1", true, some "Ev", some 1⟩],
      [⟨"Req2", false, none, none⟩], 3⟩ := by
  have hclean : cleanedRequirements [⟨"Req1", true, ""⟩, ⟨"Req2", false, ""⟩]
      = [⟨"Req1", true, ""⟩, ⟨"Req2", false, ""⟩] := by decide
  have hev : cleanedEvidence ["Ev"] = ["Ev"] := by decide
  have hembed : embedW5 ((([⟨"Req1", true, ""⟩, ⟨"Req2", false, ""⟩] :
      List CleanRequirement).map fun item => item.label) ++ ["Ev"]) =
      .ok [[1], [-1], [1]] := rfl
  have hbf1 : bestFold ⟨"Req1", true, ""⟩ [1] ["Ev"] [[1]] 0 none (-1) =
      .ok (some ⟨"Req1", true, some "Ev", some 1⟩, 1) := by
    simp only [bestFold, List.get?, cos_one_one]
    rw [if_pos (by norm_num : (-1 : ℝ) < 1)]
    simp [bestFold, cleanSimilarity, round3R_one]
  have hbf2 : bestFold ⟨"Req2", false, ""⟩ [-1] ["Ev"] [[1]] 0 none (-1) =
      .ok (none, -1) := by
    simp only [bestFold, List.get?, cos_negone_one]
    rw [if_neg (by norm_num : ¬ ((-1 : ℝ) < -1))]
  have hc1 : classifyRequirement (72/100) ⟨"Req1", true, ""⟩ [1] ["Ev"] [[1]]
      = .ok (.inl ⟨"Req1", true, some "Ev", some 1⟩) := by
    simp only [classifyRequirement, hbf1, Bind.bind, Except.bind]
    rw [if_pos (by norm_num : (72/100 : ℝ) ≤ 1)]
  have hc2 : classifyRequirement (72/100) ⟨"Req2", false, ""⟩ [-1] ["Ev"]
      [[1]] = .ok (.inr ⟨"Req2", false, none, none⟩) := by
    simp only [classifyRequirement, hbf2, Bind.bind, Except.bind]
    rw [if_neg (by norm_num : ¬ ((-1 : ℝ) < -1))]
    simp [cleanSimilarity]
  have hca : classifyAll (72/100) ["Ev"] [[1]]
      [⟨"Req1", true, ""⟩, ⟨"Req2", false, ""⟩] [[1], [-1]] =
      .ok ([⟨"Req1", true, some "Ev", some 1⟩], [⟨"Req2", false, none, none⟩])
      := by
    simp only [classifyAll, hc1, hc2, Bind.bind, Except.bind]
  simp only [scoreRequirements, hclean, hev]
  rw [if_neg (by decide : ¬ ([⟨"Req1", true, ""⟩, ⟨"Req2", false, ""⟩] :
      List CleanRequirement) = []), if_neg (by decide : ¬ (["Ev"] :
      List String) = [])]
  rw [hembed]
  simp only [Bind.bind, Except.bind, List.length_cons, List.length_nil]
  rw [show ([[1], [-1], [1]] : List (List ℝ)).take 2 = [[1], [-1]] from rfl,
    show ([[1], [-1], [1]] : List (List ℝ)).drop 2 = [[1]] from rfl, hca]
  have hscore : (if totalReqWeight [⟨"Req1", true, ""⟩, ⟨"Req2", false, ""⟩]
      ≠ 0 then pyRoundQ (100 * (totalEntryWeight
        [⟨"Req1", true, some "Ev", some 1⟩] : ℚ)
      / (totalReqWeight [⟨"Req1", true, ""⟩, ⟨"Req2", false, ""⟩] : ℚ))
      else 0) = 67 := by
    rw [if_pos (by decide : totalReqWeight [⟨"Req1", true, ""⟩,
      ⟨"Req2", false, ""⟩] ≠ 0)]
    have h1 : (totalEntryWeight [⟨"Req1", true, some "Ev", some 1⟩] : ℚ) = 2
        := by
      norm_num [totalEntryWeight, entryWeight]
    have h2 : ((totalReqWeight [⟨"Req1", true, ""⟩, ⟨"Req2", false, ""⟩] :
        ℕ) : ℚ) = 3 := by
      norm_num [totalReqWeight, reqWeight]
    rw [h1, h2, show (100 * (2 : ℚ) / 3 : ℚ) = 200/3 by norm_num,
      pyRoundQ_200_3]
  simp only [hscore]
  norm_num [totalReqWeight, reqWeight]

theorem claim5_weighted_score_formula_witness :
    cleanedRequirements [⟨"Req1", true, ""⟩, ⟨"Req2", false, ""⟩] ≠ []
    ∧ cleanedEvidence ["Ev"] ≠ []
    ∧ (67 : ℤ) = pyRoundQ (100 * (totalEntryWeight
        [⟨"Req1", true, some "Ev", some 1⟩] : ℚ)
      / (totalReqWeight (cleanedRequirements
        [⟨"Req1", true, ""⟩, ⟨"Req2", false, ""⟩]) : ℚ)) := by
  refine ⟨by decide, by decide, ?_⟩
  exact claim5_weighted_score_formula embedW5
    [⟨"Req1", true, ""⟩, ⟨"Req2", false, ""⟩] ["Ev"] (72/100)
    ⟨67, true, [⟨"Req1", true, some "Ev", some 1⟩],
      [⟨"Req2", false, none, none⟩], 3⟩
    (by decide) (by decide) scoreRequirements_w5_eval

/-- `DIMENSION_WEIGHTS.get(key, 0.0)` from `ai_service.py`. -/
def dimensionWeight : String → ℚ
  | "skills" => 35/100
  | "experience" => 35/100
  | "education" => 15/100
  | "keywords" => 15/100
  | _ => 0

/-- The aggregation loop of `score_resume_against_job`: fold over the
breakdown in dict insertion order (skills, experience, education, keywords),
accumulating `active_weight` and `weighted_score` over the applicable
dimensions only, then `int(round(weighted_score / active_weight))` when
`active_weight` is truthy, else `0`. -/
def aggregateOverall (skills experience education keywords :
    DimensionResult) : ℤ :=
  let breakdown : List (String × DimensionResult) :=
    [("skills", skills), ("experience", experience),
      ("education", education), ("keywords", keywords)]
  let acc := breakdown.foldl
    (fun acc kv =>
      if kv.2.applicable then
        (acc.1 + dimensionWeight kv.1,
          acc.2 + dimensionWeight kv.1 * (kv.2.score : ℚ))
      else acc)
    ((0 : ℚ), (0 : ℚ))
  if acc.1 ≠ 0 then pyRoundQ (acc.2 / acc.1) else 0

lemma pyRoundQ_eq_floor (x : ℚ) (n : ℤ) (h1 : ⌊x⌋ = n)
    (h2 : Int.fract x < 1/2) : pyRoundQ x = n := by
  unfold pyRoundQ
  rw [if_pos h2, h1]

lemma pyRoundQ_859_13 : pyRoundQ (859/13) = 66 := by
  refine pyRoundQ_eq_floor _ _ ?_ ?_
  · rw [Int.floor_eq_iff]
    constructor <;> norm_num
  · have hf : ⌊(859/13 : ℚ)⌋ = 66 := by
      rw [Int.floor_eq_iff]
      constructor <;> norm_num
    rw [Int.fract, hf]
    norm_num

/-- C3: the aggregation of `score_resume_against_job` sums base weights and
`weight * score` over the applicable dimensions only and returns
`round(weighted_sum / active_weight)` when `active_weight > 0`, else `0`;
in particular skills = 67 (applicable), experience inapplicable,
education = 50, keywords = 80 yields 66, and four inapplicable dimensions
yield 0. -/
theorem claim3_overall_score_aggregation :
    (∀ s e ed k : DimensionResult,
      aggregateOverall s e ed k =
        if 0 < ((if s.applicable then (35/100 : ℚ) else 0)
            + (if e.applicable then 35/100 else 0)
            + (if ed.applicable then 15/100 else 0)
            + (if k.applicable then 15/100 else 0)) then
          pyRoundQ (((if s.applicable then 35/100 * (s.score : ℚ) else 0)
              + (if e.applicable then 35/100 * (e.score : ℚ) else 0)
              + (if ed.applicable then 15/100 * (ed.score : ℚ) else 0)
              + (if k.applicable then 15/100 * (k.score : ℚ) else 0))
            / ((if s.applicable then (35/100 : ℚ) else 0)
              + (if e.applicable then 35/100 else 0)
              + (if ed.applicable then 15/100 else 0)
              + (if k.applicable then 15/100 else 0)))
        else 0)
    ∧ aggregateOverall ⟨67, true, [], [], 0⟩ ⟨0, false, [], [], 0⟩
        ⟨50, true, [], [], 0⟩ ⟨80, true, [], [], 0⟩ = 66
    ∧ aggregateOverall ⟨100, false, [], [], 0⟩ ⟨100, false, [], [], 0⟩
        ⟨100, false, [], [], 0⟩ ⟨100, false, [], [], 0⟩ = 0 := by
  refine ⟨?_, ?_, ?_⟩
  · intro s e ed k
    cases hs : s.applicable <;> cases he : e.applicable <;>
      cases hed : ed.applicable <;> cases hk : k.applicable <;>
      simp only [aggregateOverall, List.foldl, dimensionWeight, hs, he, hed,
        hk, if_true, if_false, Bool.false_eq_true, ite_true, ite_false] <;>
      norm_num
  · simp only [aggregateOverall, List.foldl, dimensionWeight]
    norm_num [pyRoundQ_859_13]
  · simp [aggregateOverall]

lemma dotList_eq_sum_range (a b : List ℝ) :
    dotList a b = ∑ i ∈ Finset.range (min a.length b.length),
      a.getD i 0 * b.getD i 0 := by
  induction a generalizing b with
  | nil => simp [dotList]
  | cons x as ih =>
      cases b with
      | nil => simp [dotList]
      | cons y bs =>
          simp only [dotList, List.zipWith_cons_cons, List.sum_cons,
            List.length_cons]
          rw [Nat.succ_min_succ, Finset.sum_range_succ']
          simp only [List.getD_cons_succ, List.getD_cons_zero]
          rw [← dotList, ih, add_comm]

lemma sqNorm_eq_sum_range (a : List ℝ) :
    sqNorm a = ∑ i ∈ Finset.range a.length, a.getD i 0 ^ 2 := by
  induction a with
  | nil => simp [sqNorm]
  | cons x as ih =>
      simp only [sqNorm, List.map_cons, List.sum_cons, List.length_cons]
      rw [Finset.sum_range_succ']
      simp only [List.getD_cons_succ, List.getD_cons_zero]
      rw [← sqNorm, ih, add_comm, sq]

lemma sum_sq_range_le_sqNorm (a : List ℝ) (n : ℕ) (h : n ≤ a.length) :
    ∑ i ∈ Finset.range n, a.getD i 0 ^ 2 ≤ sqNorm a := by
  rw [sqNorm_eq_sum_range]
  refine Finset.sum_le_sum_of_subset_of_nonneg
    (Finset.range_subset.2 h) ?_
  intro i _ _
  positivity

lemma dotList_sq_le (a b : List ℝ) :
    dotList a b ^ 2 ≤ sqNorm a * sqNorm b := by
  rw [dotList_eq_sum_range]
  calc (∑ i ∈ Finset.range (min a.length b.length),
        a.getD i 0 * b.getD i 0) ^ 2
      ≤ (∑ i ∈ Finset.range (min a.length b.length), a.getD i 0 ^ 2) *
        ∑ i ∈ Finset.range (min a.length b.length), b.getD i 0 ^ 2 :=
        Finset.sum_mul_sq_le_sq_mul_sq _ _ _
    _ ≤ sqNorm a * sqNorm b := by
        refine mul_le_mul
          (sum_sq_range_le_sqNorm a _ (min_le_left _ _))
          (sum_sq_range_le_sqNorm b _ (min_le_right _ _))
          (Finset.sum_nonneg fun i _ => by positivity)
          (sqNorm_nonneg a)

lemma abs_dotList_le (a b : List ℝ) :
    |dotList a b| ≤ normList a * normList b := by
  have h1 : |dotList a b| = Real.sqrt (dotList a b ^ 2) :=
    (Real.sqrt_sq_eq_abs _).symm
  rw [h1, normList, normList, ← Real.sqrt_mul (sqNorm_nonneg a)]
  exact Real.sqrt_le_sqrt (dotList_sq_le a b)

lemma cosineSimilarity_mem_Icc (a b : List ℝ) :
    -1 ≤ cosineSimilarity a b ∧ cosineSimilarity a b ≤ 1 := by
  unfold cosineSimilarity
  split_ifs with h
  · norm_num
  · push_neg at h
    have ha : 0 < normList a :=
      lt_of_le_of_ne (Real.sqrt_nonneg _) (Ne.symm h.1)
    have hb : 0 < normList b :=
      lt_of_le_of_ne (Real.sqrt_nonneg _) (Ne.symm h.2)
    have habs : |dotList a b / (normList a * normList b)| ≤ 1 := by
      rw [abs_div, abs_of_pos (mul_pos ha hb)]
      exact div_le_one_of_le₀ (abs_dotList_le a b)
        (le_of_lt (mul_pos ha hb))
    exact abs_le.1 habs

lemma pyRoundR_le_intCast {x : ℝ} {n : ℤ} (h : x ≤ (n : ℝ)) :
    pyRoundR x ≤ n := by
  have hfl : ⌊x⌋ ≤ n := by
    rw [Int.floor_le_iff]
    calc x ≤ (n : ℝ) := h
      _ < (n : ℝ) + 1 := by norm_num
  have hstep : ¬ Int.fract x < 1/2 → ⌊x⌋ + 1 ≤ n := by
    intro h1
    have hfr : (0 : ℝ) < Int.fract x := lt_of_lt_of_le (by norm_num)
      (not_lt.1 h1)
    have hx : (⌊x⌋ : ℝ) < x := by
      rw [Int.fract] at hfr
      linarith
    have : (⌊x⌋ : ℝ) < (n : ℝ) := lt_of_lt_of_le hx h
    have hlt : ⌊x⌋ < n := by exact_mod_cast this
    omega
  unfold pyRoundR
  split_ifs with h1 h2 h3
  · exact hfl
  · exact hstep h1
  · exact hfl
  · exact hstep h1

lemma intCast_le_pyRoundR {x : ℝ} {n : ℤ} (h : (n : ℝ) ≤ x) :
    n ≤ pyRoundR x := by
  have hfl : n ≤ ⌊x⌋ := Int.le_floor.2 h
  unfold pyRoundR
  split_ifs <;> omega

lemma round3R_bounds {x : ℝ} (h1 : -1 ≤ x) (h2 : x ≤ 1) :
    -1 ≤ round3R x ∧ round3R x ≤ 1 := by
  have hi1 : ((-1000 : ℤ) : ℝ) ≤ 1000 * x := by push_cast; linarith
  have hi2 : 1000 * x ≤ ((1000 : ℤ) : ℝ) := by push_cast; linarith
  have hb1 : (-1000 : ℤ) ≤ pyRoundR (1000 * x) := intCast_le_pyRoundR hi1
  have hb2 : pyRoundR (1000 * x) ≤ (1000 : ℤ) := pyRoundR_le_intCast hi2
  have hc1 : (-1000 : ℝ) ≤ (pyRoundR (1000 * x) : ℝ) := by exact_mod_cast hb1
  have hc2 : ((pyRoundR (1000 * x) : ℤ) : ℝ) ≤ 1000 := by exact_mod_cast hb2
  unfold round3R
  constructor
  · rw [le_div_iff₀ (by norm_num : (0 : ℝ) < 1000)]
    linarith
  · rw [div_le_iff₀ (by norm_num : (0 : ℝ) < 1000)]
    linarith

/-- State invariant of the best-match fold: either the sentinel state, or a
best similarity in `[-1, 1]` whose rounded value is recorded on the best
entry. -/
def BestState (best : Option MatchEntry) (bestSim : ℝ) : Prop :=
  (best = none ∧ bestSim = -1) ∨
    (-1 ≤ bestSim ∧ bestSim ≤ 1 ∧
      ∀ e, best = some e → e.similarity = some (round3R bestSim))

lemma bestFold_invariant (item : CleanRequirement) (reqVec : List ℝ)
    (evidence : List String) :
    ∀ (evVecs : List (List ℝ)) (idx : ℕ) (best : Option MatchEntry)
      (bestSim : ℝ) (out : Option MatchEntry × ℝ),
      bestFold item reqVec evidence evVecs idx best bestSim = .ok out →
      BestState best bestSim → BestState out.1 out.2 := by
  intro evVecs
  induction evVecs with
  | nil =>
      intro idx best bestSim out h hinv
      simp only [bestFold, Except.ok.injEq] at h
      rw [← h]
      exact hinv
  | cons v rest ih =>
      intro idx best bestSim out h hinv
      simp only [bestFold] at h
      cases hget : evidence.get? idx with
      | none =>
          rw [hget] at h
          exact absurd h (by simp)
      | some text =>
          rw [hget] at h
          split_ifs at h with hlt
          · refine ih (idx + 1) _ _ out h ?_
            refine Or.inr ⟨(cosineSimilarity_mem_Icc reqVec v).1,
              (cosineSimilarity_mem_Icc reqVec v).2, ?_⟩
            intro e he
            simp only [Option.some.injEq] at he
            rw [← he]
            simp [cleanSimilarity]
          · exact ih (idx + 1) _ _ out h hinv

lemma classifyRequirement_similarity_bound (threshold : ℝ)
    (item : CleanRequirement) (reqVec : List ℝ) (evidence : List String)
    (evVecs : List (List ℝ)) (out : MatchEntry ⊕ MatchEntry)
    (h : classifyRequirement threshold item reqVec evidence evVecs = .ok out)
    (e : MatchEntry) (he : out = .inl e ∨ out = .inr e) (s : ℝ)
    (hs : e.similarity = some s) : -1 ≤ s ∧ s ≤ 1 := by
  simp only [classifyRequirement, Bind.bind, Except.bind] at h
  cases hbf : bestFold item reqVec evidence evVecs 0 none (-1) with
  | error err =>
      rw [hbf] at h
      exact Except.noConfusion h
  | ok p =>
      rw [hbf] at h
      obtain ⟨best, bestSim⟩ := p
      dsimp only at h
      have hinv : BestState best bestSim :=
        bestFold_invariant item reqVec evidence evVecs 0 none (-1) _ hbf
          (Or.inl ⟨rfl, rfl⟩)
      have hbnd_of : -1 < bestSim → -1 ≤ bestSim ∧ bestSim ≤ 1 := by
        intro hgt
        rcases hinv with ⟨_, hb⟩ | ⟨hb1, hb2, _⟩
        · rw [hb] at hgt
          exact absurd hgt (by norm_num)
        · exact ⟨hb1, hb2⟩
      have hmiss : ∀ s, cleanSimilarity
          (if -1 < bestSim then some bestSim else none) = some s →
          -1 ≤ s ∧ s ≤ 1 := by
        intro s2 hs2
        split_ifs at hs2 with hgt
        · simp only [cleanSimilarity, Option.map_some', Option.some.injEq]
            at hs2
          rw [← hs2]
          exact round3R_bounds (hbnd_of hgt).1 (hbnd_of hgt).2
        · simp only [cleanSimilarity, Option.map_none'] at hs2
          exact Option.noConfusion hs2
      cases hbest : best with
      | some entry =>
          rw [hbest] at h hinv
          dsimp only at h
          have hsim : entry.similarity = some (round3R bestSim) := by
            rcases hinv with ⟨hno, _⟩ | ⟨_, _, hrec⟩
            · exact Option.noConfusion hno
            · exact hrec entry rfl
          have hbnd : -1 ≤ bestSim ∧ bestSim ≤ 1 := by
            rcases hinv with ⟨hno, _⟩ | ⟨hb1, hb2, _⟩
            · exact Option.noConfusion hno
            · exact ⟨hb1, hb2⟩
          by_cases hth : threshold ≤ bestSim
          · rw [if_pos hth] at h
            simp only [Except.ok.injEq] at h
            subst h
            rcases he with he | he
            · injection he with he2
              subst he2
              rw [hsim] at hs
              simp only [Option.some.injEq] at hs
              rw [← hs]
              exact round3R_bounds hbnd.1 hbnd.2
            · exact Sum.noConfusion he
          · rw [if_neg hth] at h
            simp only [Except.ok.injEq] at h
            subst h
            rcases he with he | he
            · exact Sum.noConfusion he
            · injection he with he2
              subst he2
              dsimp only at hs
              exact hmiss s hs
      | none =>
          rw [hbest] at h
          dsimp only at h
          simp only [Except.ok.injEq] at h
          subst h
          rcases he with he | he
          · exact Sum.noConfusion he
          · injection he with he2
            subst he2
            dsimp only at hs
            exact hmiss s hs

lemma classifyAll_similarity_bound (threshold : ℝ) (evidence : List String)
    (evVecs : List (List ℝ)) :
    ∀ (reqs : List CleanRequirement) (reqVecs : List (List ℝ))
      (out : List MatchEntry × List MatchEntry),
      classifyAll threshold evidence evVecs reqs reqVecs = .ok out →
      ∀ e ∈ out.1 ++ out.2, ∀ s, e.similarity = some s →
        -1 ≤ s ∧ s ≤ 1 := by
  intro reqs
  induction reqs with
  | nil =>
      intro reqVecs out h e hmem
      simp only [classifyAll, Except.ok.injEq] at h
      rw [← h] at hmem
      simp at hmem
  | cons item rest ih =>
      intro reqVecs out h e hmem s hs
      cases reqVecs with
      | nil =>
          simp only [classifyAll] at h
          exact Except.noConfusion h
      | cons reqVec reqVecsRest =>
          simp only [classifyAll, Bind.bind, Except.bind] at h
          cases hone : classifyRequirement threshold item reqVec evidence
              evVecs with
          | error err =>
              rw [hone] at h
              exact Except.noConfusion h
          | ok one =>
              rw [hone] at h
              dsimp only at h
              cases hrest : classifyAll threshold evidence evVecs rest
                  reqVecsRest with
              | error err =>
                  rw [hrest] at h
                  exact Except.noConfusion h
              | ok p =>
                  rw [hrest] at h
                  obtain ⟨m, mi⟩ := p
                  dsimp only at h
                  cases one with
                  | inl e1 =>
                      simp only [Except.ok.injEq] at h
                      rw [← h] at hmem
                      simp only [List.cons_append, List.mem_cons,
                        List.mem_append] at hmem
                      rcases hmem with rfl | hmem
                      · exact classifyRequirement_similarity_bound
                          threshold item reqVec evidence evVecs _ hone e
                          (Or.inl rfl) s hs
                      · exact ih reqVecsRest (m, mi) hrest e
                          (by simpa using hmem) s hs
                  | inr e1 =>
                      simp only [Except.ok.injEq] at h
                      rw [← h] at hmem
                      simp only [List.mem_append, List.mem_cons] at hmem
                      rcases hmem with hmem | rfl | hmem
                      · exact ih reqVecsRest (m, mi) hrest e
                          (by simpa using Or.inl hmem) s hs
                      · exact classifyRequirement_similarity_bound
                          threshold item reqVec evidence evVecs _ hone e
                          (Or.inr rfl) s hs
                      · exact ih reqVecsRest (m, mi) hrest e
                          (by simpa using Or.inr hmem) s hs

/-- C9 amended: every similarity recorded on a `matched` or `missing` entry
of `_score_requirements` lies in `[-1, 1]` (matched entries additionally sit
at or above the threshold, but missing entries can record a negative best
similarity, so `[0, 1]` does not hold). -/
theorem claim9_similarity_range_amended
    (embed : List String → Except PyErr (List (List ℝ)))
    (requirements : List RawRequirement) (evidenceTexts : List String)
    (threshold : ℝ) (r : DimensionResult)
    (hok : scoreRequirements embed requirements evidenceTexts threshold =
      .ok r) :
    ∀ e ∈ r.matched ++ r.missing, ∀ s, e.similarity = some s →
      -1 ≤ s ∧ s ≤ 1 := by
  intro e hmem s hs
  simp only [scoreRequirements] at hok
  by_cases h1 : cleanedRequirements requirements = []
  · rw [if_pos h1] at hok
    simp only [Except.ok.injEq] at hok
    rw [← hok] at hmem
    simp at hmem
  rw [if_neg h1] at hok
  by_cases h2 : cleanedEvidence evidenceTexts = []
  · rw [if_pos h2] at hok
    simp only [Except.ok.injEq] at hok
    rw [← hok] at hmem
    simp only [List.nil_append, List.mem_map] at hmem
    rcases hmem with ⟨item, _, rfl⟩
    exact Option.noConfusion hs
  · rw [if_neg h2] at hok
    simp only [Bind.bind, Except.bind] at hok
    cases hembed : embed (((cleanedRequirements requirements).map
        fun item => item.label) ++ cleanedEvidence evidenceTexts) with
    | error err =>
        rw [hembed] at hok
        exact Except.noConfusion hok
    | ok embeddings =>
        rw [hembed] at hok
        dsimp only at hok
        cases hclass : classifyAll threshold (cleanedEvidence evidenceTexts)
            (embeddings.drop (cleanedRequirements requirements).length)
            (cleanedRequirements requirements)
            (embeddings.take (cleanedRequirements requirements).length) with
        | error err =>
            rw [hclass] at hok
            exact Except.noConfusion hok
        | ok p =>
            rw [hclass] at hok
            obtain ⟨m, mi⟩ := p
            dsimp only at hok
            simp only [Except.ok.injEq] at hok
            rw [← hok] at hmem
            exact classifyAll_similarity_bound threshold
              (cleanedEvidence evidenceTexts)
              (embeddings.drop (cleanedRequirements requirements).length)
              (cleanedRequirements requirements)
              (embeddings.take (cleanedRequirements requirements).length)
              (m, mi) hclass e hmem s hs

/-- Embedding provider for the C9 run: the requirement label embeds to
`[3, 4]`, anything else (the evidence snippet) to `[0, -1]`. -/
def embedC9 : List String → Except PyErr (List (List ℝ)) :=
  fun ts => .ok (ts.map fun t => if t = "Req" then [3, 4] else [0, -1])

lemma normList_34 : normList [(3 : ℝ), 4] = 5 := by
  rw [normList, show sqNorm [(3 : ℝ), 4] = 25 by norm_num [sqNorm],
    show (25 : ℝ) = 5 ^ 2 by norm_num,
    Real.sqrt_sq (by norm_num : (0 : ℝ) ≤ 5)]

lemma normList_0neg1 : normList [(0 : ℝ), -1] = 1 := by
  rw [normList, show sqNorm [(0 : ℝ), -1] = 1 by norm_num [sqNorm],
    Real.sqrt_one]

lemma cos_34_0neg1 : cosineSimilarity [(3 : ℝ), 4] [0, -1] = -(4/5) := by
  have hne : ¬ (normList [(3 : ℝ), 4] = 0 ∨ normList [(0 : ℝ), -1] = 0) := by
    simp [normList_34, normList_0neg1]
  rw [cosineSimilarity, if_neg hne, normList_34, normList_0neg1]
  norm_num [dotList, List.zipWith_cons_cons]

lemma round3R_neg45 : round3R (-(4/5)) = -(4/5) := by
  have h : (1000 : ℝ) * (-(4/5)) = ((-800 : ℤ) : ℝ) := by norm_num
  rw [round3R, h, pyRoundR_intCast]
  norm_num

lemma pyRoundQ_zero : pyRoundQ 0 = 0 := by
  unfold pyRoundQ
  norm_num

lemma scoreRequirements_c9_eval :
    scoreRequirements embedC9 [⟨"Req", false, ""⟩] ["Ev"] (72/100) =
      .ok ⟨0, true, [], [⟨"Req", false, none, some (-(4/5))⟩], 1⟩ := by
  have hclean : cleanedRequirements [⟨"Req", false, ""⟩] =
      [⟨"Req", false, ""⟩] := by decide
  have hev : cleanedEvidence ["Ev"] = ["Ev"] := by decide
  have hembed : embedC9 ((([⟨"Req", false, ""⟩] :
      List CleanRequirement).map fun item => item.label) ++ ["Ev"]) =
      .ok [[3, 4], [0, -1]] := rfl
  have hbf : bestFold ⟨"Req", false, ""⟩ [3, 4] ["Ev"] [[0, -1]] 0 none (-1)
      = .ok (some ⟨"Req", false, some "Ev", some (-(4/5))⟩, -(4/5)) := by
    simp only [bestFold, List.get?, cos_34_0neg1]
    rw [if_pos (by norm_num : (-1 : ℝ) < -(4/5))]
    simp [bestFold, cleanSimilarity, round3R_neg45]
  have hc : classifyRequirement (72/100) ⟨"Req", false, ""⟩ [3, 4] ["Ev"]
      [[0, -1]] = .ok (.inr ⟨"Req", false, none, some (-(4/5))⟩) := by
    simp only [classifyRequirement, hbf, Bind.bind, Except.bind]
    rw [if_neg (by norm_num : ¬ ((72/100 : ℝ) ≤ -(4/5))),
      if_pos (by norm_num : (-1 : ℝ) < -(4/5))]
    simp [cleanSimilarity, round3R_neg45]
  have hca : classifyAll (72/100) ["Ev"] [[0, -1]] [⟨"Req", false, ""⟩]
      [[3, 4]] = .ok ([], [⟨"Req", false, none, some (-(4/5))⟩]) := by
    simp only [classifyAll, hc, Bind.bind, Except.bind]
  simp only [scoreRequirements, hclean, hev]
  rw [if_neg (by decide : ¬ ([⟨"Req", false, ""⟩] :
      List CleanRequirement) = []),
    if_neg (by decide : ¬ (["Ev"] : List String) = [])]
  rw [hembed]
  simp only [Bind.bind, Except.bind, List.length_cons, List.length_nil]
  rw [show ([[3, 4], [0, -1]] : List (List ℝ)).take 1 = [[3, 4]] from rfl,
    show ([[3, 4], [0, -1]] : List (List ℝ)).drop 1 = [[0, -1]] from rfl,
    hca]
  have hscore : (if totalReqWeight [⟨"Req", false, ""⟩] ≠ 0 then
      pyRoundQ (100 * (totalEntryWeight ([] : List MatchEntry) : ℚ)
        / (totalReqWeight [⟨"Req", false, ""⟩] : ℚ))
      else 0) = 0 := by
    rw [if_pos (by decide : totalReqWeight [⟨"Req", false, ""⟩] ≠ 0)]
    norm_num [totalEntryWeight, pyRoundQ_zero]
  simp only [hscore]
  norm_num [totalReqWeight, reqWeight]

/-- C9 counterexample: on the `[3,4]` / `[0,-1]` embeddings the single
requirement is missing with a present similarity of `-4/5`, which is not in
`[0, 1]` (neither before nor after rounding, since `round(-4/5, 3) = -4/5`
exactly). -/
theorem claim9_similarity_range_cex :
    scoreRequirements embedC9 [⟨"Req", false, ""⟩] ["Ev"] (72/100) =
      .ok ⟨0, true, [], [⟨"Req", false, none, some (-(4/5))⟩], 1⟩
    ∧ ¬ (0 ≤ (-(4/5) : ℝ)) :=
  ⟨scoreRequirements_c9_eval, by norm_num⟩

theorem claim9_similarity_range_amended_witness :
    -1 ≤ (-(4/5) : ℝ) ∧ (-(4/5) : ℝ) ≤ 1 :=
  claim9_similarity_range_amended embedC9 [⟨"Req", false, ""⟩] ["Ev"]
    (72/100) ⟨0, true, [], [⟨"Req", false, none, some (-(4/5))⟩], 1⟩
    scoreRequirements_c9_eval ⟨"Req", false, none, some (-(4/5))⟩
    (by simp) (-(4/5)) rfl

/-- `job["metadata"]` when it is a dict: the fields read by the
recommendation paths. -/
structure JobMetadata where
  industry : List String
  company_size : String
deriving Repr, DecidableEq

/-- A job record: the dict fields read by `recommendation_service`.
`embedding` is the cached job embedding (absent, or possibly an empty
list). -/
structure Job where
  title : String
  company : String
  description : String
  summary : String
  skills : List String
  categories : List String
  levels : List String
  metadata : Option JobMetadata
  embedding : Option (List ℝ)

/-- The preference fields read by `_evaluate_preferences` and
`_base_job_query`. -/
structure PreferencePayload where
  role_families : List String
  seniority_levels : List String
  company_sizes : List String
  industries_like : List String
  industries_avoid : List String
deriving Repr, DecidableEq

/-- Non-empty intersection of two Python sets given as (lower-cased)
lists. -/
def strIntersects (a b : List String) : Bool :=
  a.any fun x => b.contains x

/-- `sorted(list(set(lower job skills) & set(lower profile skills)))` from
the skill-overlap reason of `_evaluate_preferences`. -/
def skillOverlapSorted (jobSkills profileSkills : List String) :
    List String :=
  pySortStrings (((jobSkills.map pyLower).dedup).filter
    fun s => (profileSkills.map pyLower).contains s)

/-- The first five rules of `_evaluate_preferences` (role families,
seniority, company size, liked industries, avoided industries), in source
order; the skill-overlap rule follows in `evaluatePreferences`. -/
def prefBase (job : Job) (preferences : PreferencePayload) :
    ℚ × List String :=
  let score : ℚ := 0
  let reasons : List String := []
  let categories := job.categories.map pyLower
  let step1 :=
    if preferences.role_families ≠ [] then
      if strIntersects categories (preferences.role_families.map pyLower)
      then (score + 10, reasons ++ ["Matches preferred role focus"])
      else (score, reasons)
    else (score, reasons)
  let levels := job.levels.map pyLower
  let step2 :=
    if preferences.seniority_levels ≠ [] then
      if strIntersects levels (preferences.seniority_levels.map pyLower)
      then (step1.1 + 10, step1.2 ++ ["Requested seniority level"])
      else step1
    else step1
  let industries := match job.metadata with
    | some md => md.industry.map pyLower
    | none => []
  let step3 :=
    match job.metadata with
    | some md =>
        let companySize := pyLower md.company_size
        if preferences.company_sizes ≠ [] ∧ companySize ≠ "" then
          if (preferences.company_sizes.map pyLower).contains companySize
          then (step2.1 + 10, step2.2 ++ ["Preferred company size"])
          else step2
        else step2
    | none => step2
  let step4 :=
    if preferences.industries_like ≠ [] then
      if strIntersects industries (preferences.industries_like.map pyLower)
      then (step3.1 + 10, step3.2 ++ ["Preferred industry"])
      else step3
    else step3
  let step5 :=
    if preferences.industries_avoid ≠ [] then
      if strIntersects industries (preferences.industries_avoid.map pyLower)
      then (step4.1 - 10, step4.2 ++ ["Industry on avoid list"])
      else step4
    else step4
  step5

/-- `_evaluate_preferences` from `recommendation_service.py`: the five
categorical rules followed by the skill-overlap rule, whose reason joins the
sorted lower-cased overlap and truncates the joined string to 60
characters. -/
def evaluatePreferences (job : Job) (preferences : PreferencePayload)
    (profileSkills : List String) : ℚ × List String :=
  let base := prefBase job preferences
  let jobSkills := job.skills.map pyLower
  let profileSkillSet := profileSkills.map pyLower
  if jobSkills ≠ [] ∧ profileSkillSet ≠ [] then
    if strIntersects jobSkills profileSkillSet then
      (base.1 + 10, base.2 ++ ["Skill overlap: " ++
        (String.intercalate ", "
          (skillOverlapSorted job.skills profileSkills)).take 60])
    else base
  else base

/-- `_job_to_text` from `recommendation_service.py`. -/
def jobToText (job : Job) : String :=
  let chunks := [job.title, job.company]
  let description :=
    if job.description ≠ "" then job.description else job.summary
  let chunks := if description ≠ "" then chunks ++ [description] else chunks
  let chunks := if job.skills ≠ [] then
    chunks ++ ["Skills: " ++ String.intercalate ", " job.skills] else chunks
  let chunks := if job.categories ≠ [] then
    chunks ++ ["Categories: " ++ String.intercalate ", " job.categories]
    else chunks
  let chunks := if job.levels ≠ [] then
    chunks ++ ["Levels: " ++ String.intercalate ", " job.levels] else chunks
  String.intercalate " \n" (chunks.filter fun c => c ≠ "")

/-- `_embed_text`: strip; empty text yields `None` without touching the
provider; otherwise embed the snippet and take the first returned vector,
`None` when the provider returned no vectors. -/
def embedText (embed : List String → Except PyErr (List (List ℝ)))
    (text : String) : Except PyErr (Option (List ℝ)) :=
  let snippet := pyStrip text
  if snippet = "" then .ok none
  else do
    let vectors ← embed [snippet]
    .ok vectors.head?

/-- `_ensure_job_embedding`: return the cached embedding when it is a
non-empty list, otherwise embed the job text.  The `update_one` write-back
only persists the cache and does not change the returned vector. -/
def ensureJobEmbedding (embed : List String → Except PyErr (List (List ℝ)))
    (job : Job) : Except PyErr (Option (List ℝ)) :=
  match job.embedding with
  | some cached => if !cached.isEmpty then .ok (some cached)
      else embedText embed (jobToText job)
  | none => embedText embed (jobToText job)

/-- One ranked entry of `_rank_jobs` (`score` is `round(total_score, 2)`,
an exact multiple of 1/100 kept as a rational). -/
structure RankedEntry where
  job : Job
  score : ℚ
  reasons : List String

/-- `total_score = min(100.0, max(0.0, sim_score + pref_score))`. -/
noncomputable def clampedTotal (simScore prefScore : ℝ) : ℝ :=
  min 100 (max 0 (simScore + prefScore))

/-- The loop body of `_rank_jobs` for one job: preference evaluation, then
the optional resume-similarity contribution with its reason, then the
clamped and rounded score. -/
noncomputable def entryFor
    (embed : List String → Except PyErr (List (List ℝ)))
    (preferences : PreferencePayload) (profileSkills : List String)
    (resumeVector : Option (List ℝ)) (job : Job) :
    Except PyErr RankedEntry :=
  let pr := evaluatePreferences job preferences profileSkills
  match resumeVector with
  | some rvec =>
      if !rvec.isEmpty then do
        let jobVector ← ensureJobEmbedding embed job
        match jobVector with
        | some jvec =>
            if !jvec.isEmpty then
              let similarity := cosineSimilarity rvec jvec
              if 0 < similarity then
                .ok ⟨job,
                  pyRound2R (clampedTotal (similarity * 70) ((pr.1 : ℝ))),
                  pr.2 ++ ["Resume alignment " ++
                    toString (pyTrunc (similarity * 100)) ++ "%"]⟩
              else .ok ⟨job, pyRound2R (clampedTotal 0 ((pr.1 : ℝ))), pr.2⟩
            else .ok ⟨job, pyRound2R (clampedTotal 0 ((pr.1 : ℝ))), pr.2⟩
        | none => .ok ⟨job, pyRound2R (clampedTotal 0 ((pr.1 : ℝ))), pr.2⟩
      else .ok ⟨job, pyRound2R (clampedTotal 0 ((pr.1 : ℝ))), pr.2⟩
  | none => .ok ⟨job, pyRound2R (clampedTotal 0 ((pr.1 : ℝ))), pr.2⟩

/-- The accumulation loop of `_rank_jobs` before the sort. -/
noncomputable def rankedEntries
    (embed : List String → Except PyErr (List (List ℝ)))
    (jobs : List Job) (preferences : PreferencePayload)
    (profileSkills : List String) (resumeVector : Option (List ℝ)) :
    Except PyErr (List RankedEntry) :=
  match jobs with
  | [] => .ok []
  | job :: rest => do
      let e ← entryFor embed preferences profileSkills resumeVector job
      let es ← rankedEntries embed rest preferences profileSkills
        resumeVector
      .ok (e :: es)

/-- The descending-by-score relation used by the final
`ranked.sort(key=..., reverse=True)`. -/
def rankLe (a b : RankedEntry) : Prop :=
  b.score ≤ a.score

instance : DecidableRel rankLe :=
  fun a b => inferInstanceAs (Decidable (b.score ≤ a.score))

instance : IsTotal RankedEntry rankLe :=
  ⟨fun a b => le_total b.score a.score⟩

instance : IsTrans RankedEntry rankLe :=
  ⟨fun _ _ _ hab hbc => le_trans hbc hab⟩

/-- `_rank_jobs` from `recommendation_service.py`: build the scored entries
in candidate order, then sort stably by score descending (CPython's stable
sort is modelled by insertion sort, which is stable). -/
noncomputable def rankJobs
    (embed : List String → Except PyErr (List (List ℝ)))
    (jobs : List Job) (preferences : PreferencePayload)
    (profileSkills : List String) (resumeVector : Option (List ℝ)) :
    Except PyErr (List RankedEntry) := do
  let ranked ← rankedEntries embed jobs preferences profileSkills
    resumeVector
  .ok (ranked.insertionSort rankLe)

/-- Job with the single skill `"Python"` and nothing else set. -/
def jobPy : Job := ⟨"", "", "", "", ["Python"], [], [], none, none⟩

/-- An empty preference set. -/
def prefsEmpty : PreferencePayload := ⟨[], [], [], [], []⟩

set_option maxRecDepth 4000 in
/-- C8 counterexample: with job skill `"Python"` and profile skill
`"python"`, the appended reason is `"Skill overlap: python"` — the
lower-cased form, not the job-side casing `"Python"`. -/
theorem claim8_skill_overlap_cex :
    evaluatePreferences jobPy prefsEmpty ["python"] =
      (10, ["Skill overlap: python"])
    ∧ ("Skill overlap: python" : String) ≠ "Skill overlap: Python" := by
  constructor
  · have hval : evaluatePreferences jobPy prefsEmpty ["python"] =
        ((0 : ℚ) + 10, [] ++ ["Skill overlap: python"]) := rfl
    rw [hval]
    norm_num
  · decide

/-- C8 amended: a non-empty case-insensitive skill overlap adds +10 and
appends a reason listing the overlapping skills lower-cased and sorted
(not case-preserved from the job side), with the joined list truncated to
60 characters. -/
theorem claim8_skill_overlap_amended (job : Job)
    (preferences : PreferencePayload) (profileSkills : List String)
    (h : skillOverlapSorted job.skills profileSkills ≠ []) :
    evaluatePreferences job preferences profileSkills =
      ((evaluatePreferences {job with skills := []} preferences
          profileSkills).1 + 10,
        (evaluatePreferences {job with skills := []} preferences
          profileSkills).2 ++ ["Skill overlap: " ++
          (String.intercalate ", "
            (skillOverlapSorted job.skills profileSkills)).take 60]) := by
  have hbase : evaluatePreferences {job with skills := []} preferences
      profileSkills = prefBase job preferences := rfl
  have hex : ∃ x ∈ (job.skills.map pyLower).dedup,
      (profileSkills.map pyLower).contains x = true := by
    by_contra hc
    push_neg at hc
    apply h
    unfold skillOverlapSorted pySortStrings
    have hnil : ((job.skills.map pyLower).dedup).filter
        (fun s => (profileSkills.map pyLower).contains s) = [] := by
      rw [List.filter_eq_nil_iff]
      intro a ha
      simpa using hc a ha
    rw [hnil]
    rfl
  obtain ⟨x, hx1, hx2⟩ := hex
  have hx1' : x ∈ job.skills.map pyLower := List.mem_dedup.1 hx1
  have hx2' : x ∈ profileSkills.map pyLower := by
    have := hx2
    unfold List.contains at this
    exact List.elem_iff.1 this
  have hne1 : job.skills.map pyLower ≠ [] := List.ne_nil_of_mem hx1'
  have hne2 : profileSkills.map pyLower ≠ [] := List.ne_nil_of_mem hx2'
  have hint : strIntersects (job.skills.map pyLower)
      (profileSkills.map pyLower) = true := by
    unfold strIntersects
    rw [List.any_eq_true]
    exact ⟨x, hx1', hx2⟩
  rw [hbase]
  simp only [evaluatePreferences]
  rw [if_pos ⟨hne1, hne2⟩, if_pos hint]

theorem claim8_skill_overlap_amended_witness :
    skillOverlapSorted jobPy.skills ["python"] ≠ []
    ∧ evaluatePreferences jobPy prefsEmpty ["python"] =
      ((evaluatePreferences {jobPy with skills := []} prefsEmpty
          ["python"]).1 + 10,
        (evaluatePreferences {jobPy with skills := []} prefsEmpty
          ["python"]).2 ++ ["Skill overlap: " ++
          (String.intercalate ", "
            (skillOverlapSorted jobPy.skills ["python"])).take 60]) :=
  ⟨by decide,
    claim8_skill_overlap_amended jobPy prefsEmpty ["python"] (by decide)⟩

lemma pyRoundR_eq_floor (x : ℝ) (n : ℤ) (h1 : ⌊x⌋ = n)
    (h2 : Int.fract x < 1/2) : pyRoundR x = n := by
  unfold pyRoundR
  rw [if_pos h2, h1]

/-- Job `A` for the rounding counterexample: category `backend`, cached
embedding orthogonal to the résumé vector. -/
def jobA6 : Job := ⟨"A", "", "", "", [], ["backend"], [], none,
  some [0, 1, 0]⟩

/-- Job `B` for the rounding counterexample: category `backend`, cached
embedding `[1, 168, 14112]` of norm 14113, nearly orthogonal to the résumé
vector `[1, 0, 0]` (cosine `1/14113`). -/
def jobB6 : Job := ⟨"B", "", "", "", [], ["backend"], [], none,
  some [1, 168, 14112]⟩

/-- Preferences with the single role family `backend`. -/
def prefsRole : PreferencePayload := ⟨["backend"], [], [], [], []⟩

/-- A provider that is never consulted (all embeddings are cached). -/
def embedNone : List String → Except PyErr (List (List ℝ)) :=
  fun _ => .ok []

lemma normList_100 : normList [(1 : ℝ), 0, 0] = 1 := by
  rw [normList, show sqNorm [(1 : ℝ), 0, 0] = 1 by norm_num [sqNorm],
    Real.sqrt_one]

lemma normList_010 : normList [(0 : ℝ), 1, 0] = 1 := by
  rw [normList, show sqNorm [(0 : ℝ), 1, 0] = 1 by norm_num [sqNorm],
    Real.sqrt_one]

lemma normList_B6 : normList [(1 : ℝ), 168, 14112] = 14113 := by
  rw [normList,
    show sqNorm [(1 : ℝ), 168, 14112] = 199176769 by norm_num [sqNorm],
    show (199176769 : ℝ) = 14113 ^ 2 by norm_num,
    Real.sqrt_sq (by norm_num : (0 : ℝ) ≤ 14113)]

lemma cos_A6 : cosineSimilarity [(1 : ℝ), 0, 0] [0, 1, 0] = 0 := by
  have hne : ¬ (normList [(1 : ℝ), 0, 0] = 0 ∨
      normList [(0 : ℝ), 1, 0] = 0) := by
    simp [normList_100, normList_010]
  rw [cosineSimilarity, if_neg hne, normList_100, normList_010]
  norm_num [dotList, List.zipWith_cons_cons]

lemma cos_B6 : cosineSimilarity [(1 : ℝ), 0, 0] [1, 168, 14112] = 1/14113
    := by
  have hne : ¬ (normList [(1 : ℝ), 0, 0] = 0 ∨
      normList [(1 : ℝ), 168, 14112] = 0) := by
    simp [normList_100, normList_B6]
  rw [cosineSimilarity, if_neg hne, normList_100, normList_B6]
  norm_num [dotList, List.zipWith_cons_cons]

lemma clampA6 : clampedTotal 0 (((10 : ℚ) : ℝ)) = 10 := by
  unfold clampedTotal
  push_cast
  rw [zero_add, max_eq_right (by norm_num : (0 : ℝ) ≤ 10),
    min_eq_right (by norm_num : (10 : ℝ) ≤ 100)]

lemma pyRound2R_10 : pyRound2R (10 : ℝ) = 10 := by
  rw [pyRound2R, show (100 : ℝ) * 10 = ((1000 : ℤ) : ℝ) by norm_num,
    pyRoundR_intCast]
  norm_num

lemma clampB6 : clampedTotal (1/14113 * 70) (((10 : ℚ) : ℝ)) =
    14120000/1411300 := by
  unfold clampedTotal
  push_cast
  rw [max_eq_right (by norm_num : (0 : ℝ) ≤ 1/14113 * 70 + 10),
    min_eq_right (by norm_num : (1/14113 * 70 + 10 : ℝ) ≤ 100)]
  norm_num

lemma pyRound2R_B6 : pyRound2R ((14120000/1411300 : ℝ)) = 10 := by
  have hf : ⌊(100 * (14120000/1411300) : ℝ)⌋ = 1000 := by
    rw [Int.floor_eq_iff]
    constructor <;> norm_num
  have hfr : Int.fract (100 * (14120000/1411300) : ℝ) < 1/2 := by
    rw [Int.fract, hf]
    norm_num
  rw [pyRound2R, pyRoundR_eq_floor _ 1000 hf hfr]
  norm_num

lemma pyTrunc_B6 : pyTrunc (1/14113 * 100 : ℝ) = 0 := by
  rw [pyTrunc, if_pos (by norm_num : (0 : ℝ) ≤ 1/14113 * 100)]
  rw [Int.floor_eq_iff]
  constructor <;> norm_num

lemma entryFor_A6 : entryFor embedNone prefsRole [] (some [1, 0, 0]) jobA6
    = .ok ⟨jobA6, 10, ["Matches preferred role focus"]⟩ := by
  have hpr : evaluatePreferences jobA6 prefsRole [] =
      ((10 : ℚ), ["Matches preferred role focus"]) := by
    have h0 : evaluatePreferences jobA6 prefsRole [] =
        ((0 : ℚ) + 10, [] ++ ["Matches preferred role focus"]) := rfl
    rw [h0]
    norm_num
  have hens : ensureJobEmbedding embedNone jobA6 = .ok (some [0, 1, 0]) :=
    rfl
  simp only [entryFor, hpr, hens, Bind.bind, Except.bind, List.isEmpty_cons,
    Bool.not_false, if_true, cos_A6]
  rw [if_neg (by norm_num : ¬ ((0 : ℝ) < 0))]
  rw [clampA6, pyRound2R_10]

lemma entryFor_B6 : entryFor embedNone prefsRole [] (some [1, 0, 0]) jobB6
    = .ok ⟨jobB6, 10,
      ["Matches preferred role focus", "Resume alignment 0%"]⟩ := by
  have hpr : evaluatePreferences jobB6 prefsRole [] =
      ((10 : ℚ), ["Matches preferred role focus"]) := by
    have h0 : evaluatePreferences jobB6 prefsRole [] =
        ((0 : ℚ) + 10, [] ++ ["Matches preferred role focus"]) := rfl
    rw [h0]
    norm_num
  have hens : ensureJobEmbedding embedNone jobB6 =
      .ok (some [1, 168, 14112]) := rfl
  simp only [entryFor, hpr, hens, Bind.bind, Except.bind, List.isEmpty_cons,
    Bool.not_false, if_true, cos_B6]
  rw [if_pos (by norm_num : (0 : ℝ) < 1/14113)]
  rw [clampB6, pyRound2R_B6, pyTrunc_B6]
  rfl

lemma rankedEntries_A6B6 :
    rankedEntries embedNone [jobA6, jobB6] prefsRole [] (some [1, 0, 0]) =
      .ok [⟨jobA6, 10, ["Matches preferred role focus"]⟩,
        ⟨jobB6, 10, ["Matches preferred role focus", "Resume alignment 0%"]⟩]
    := by
  simp only [rankedEntries, entryFor_A6, entryFor_B6, Bind.bind,
    Except.bind]

/-- C6 counterexample: with jobs `[A, B]` and totals
`A: 0 + 10`, `B: 70/14113 + 10`, both stored scores round to `10.00`, so
the stable sort returns `[A, B]` even though `A`'s (unrounded)
`total_score = clamp(sim + pref, 0, 100)` is strictly below `B`'s: the
output is ordered by `round(total_score, 2)`, not by `total_score`. -/
theorem claim6_rank_order_cex :
    rankJobs embedNone [jobA6, jobB6] prefsRole [] (some [1, 0, 0]) =
      .ok [⟨jobA6, 10, ["Matches preferred role focus"]⟩,
        ⟨jobB6, 10, ["Matches preferred role focus", "Resume alignment 0%"]⟩]
    ∧ cosineSimilarity [(1 : ℝ), 0, 0] [0, 1, 0] = 0
    ∧ clampedTotal 0 (((10 : ℚ) : ℝ)) <
      clampedTotal (cosineSimilarity [(1 : ℝ), 0, 0] [1, 168, 14112] * 70)
        (((10 : ℚ) : ℝ)) := by
  refine ⟨?_, cos_A6, ?_⟩
  · simp only [rankJobs, rankedEntries_A6B6, Bind.bind, Except.bind]
    simp only [List.insertionSort, List.orderedInsert]
    rw [if_pos (show rankLe ⟨jobA6, 10, ["Matches preferred role focus"]⟩
      ⟨jobB6, 10, ["Matches preferred role focus", "Resume alignment 0%"]⟩
      from le_refl (10 : ℚ))]
  · rw [cos_B6, clampA6, clampB6]
    norm_num

lemma filter_orderedInsert_rank (x : RankedEntry) (s : ℚ) :
    ∀ m : List RankedEntry,
      (List.orderedInsert rankLe x m).filter (fun e => decide (e.score = s))
        = if x.score = s then
            x :: m.filter (fun e => decide (e.score = s))
          else m.filter (fun e => decide (e.score = s)) := by
  intro m
  induction m with
  | nil =>
      simp only [List.orderedInsert, List.filter]
      split_ifs with h
      · simp [h]
      · simp [h]
  | cons b l ih =>
      simp only [List.orderedInsert]
      by_cases hr : rankLe x b
      · rw [if_pos hr]
        by_cases hx : x.score = s
        · rw [if_pos hx]
          simp [List.filter_cons, hx]
        · rw [if_neg hx]
          simp [List.filter_cons, hx]
      · rw [if_neg hr]
        by_cases hx : x.score = s
        · have hb : ¬ b.score = s := by
            intro hbs
            exact hr (le_of_eq (hbs.trans hx.symm))
          rw [if_pos hx]
          simp only [List.filter_cons, ih, if_pos hx]
          simp [hb]
        · rw [if_neg hx]
          simp only [List.filter_cons, ih, if_neg hx]

lemma filter_insertionSort_rank (s : ℚ) :
    ∀ l : List RankedEntry,
      (l.insertionSort rankLe).filter (fun e => decide (e.score = s)) =
        l.filter (fun e => decide (e.score = s)) := by
  intro l
  induction l with
  | nil => rfl
  | cons x xs ih =>
      simp only [List.insertionSort]
      rw [filter_orderedInsert_rank, List.filter_cons]
      by_cases hx : x.score = s
      · rw [if_pos hx, ih]
        simp [hx]
      · rw [if_neg hx, ih]
        simp [hx]

lemma rankedEntries_forall2
    (embed : List String → Except PyErr (List (List ℝ)))
    (preferences : PreferencePayload) (profileSkills : List String)
    (resumeVector : Option (List ℝ)) :
    ∀ (jobs : List Job) (es : List RankedEntry),
      rankedEntries embed jobs preferences profileSkills resumeVector =
        .ok es →
      List.Forall₂ (fun j e =>
        entryFor embed preferences profileSkills resumeVector j = .ok e)
        jobs es := by
  intro jobs
  induction jobs with
  | nil =>
      intro es h
      simp only [rankedEntries, Except.ok.injEq] at h
      rw [← h]
      exact List.Forall₂.nil
  | cons j rest ih =>
      intro es h
      simp only [rankedEntries, Bind.bind, Except.bind] at h
      cases he : entryFor embed preferences profileSkills resumeVector j
          with
      | error err =>
          rw [he] at h
          exact Except.noConfusion h
      | ok e =>
          rw [he] at h
          dsimp only at h
          cases hr : rankedEntries embed rest preferences profileSkills
              resumeVector with
          | error err =>
              rw [hr] at h
              exact Except.noConfusion h
          | ok es2 =>
              rw [hr] at h
              dsimp only at h
              simp only [Except.ok.injEq] at h
              rw [← h]
              exact List.Forall₂.cons he (ih es2 hr)

/-- C6 amended: whenever the per-job loop succeeds, `_rank_jobs` returns
exactly the stable insertion sort of the loop's entries by stored score
(`round(clamp(sim_score + pref_score, 0, 100), 2)`) descending: the output
is sorted descending by the rounded score, entries with equal rounded score
keep their input order (the filter at each score value is unchanged), and
each entry arises from its job through the loop body `entryFor`. -/
theorem claim6_rank_sorted_stable_amended
    (embed : List String → Except PyErr (List (List ℝ)))
    (jobs : List Job) (preferences : PreferencePayload)
    (profileSkills : List String) (resumeVector : Option (List ℝ))
    (es : List RankedEntry)
    (h : rankedEntries embed jobs preferences profileSkills resumeVector =
      .ok es) :
    rankJobs embed jobs preferences profileSkills resumeVector =
      .ok (es.insertionSort rankLe)
    ∧ List.Sorted rankLe (es.insertionSort rankLe)
    ∧ (∀ s : ℚ, (es.insertionSort rankLe).filter
        (fun e => decide (e.score = s)) =
        es.filter (fun e => decide (e.score = s)))
    ∧ List.Forall₂ (fun j e =>
        entryFor embed preferences profileSkills resumeVector j = .ok e)
        jobs es := by
  refine ⟨?_, List.sorted_insertionSort rankLe es,
    fun s => filter_insertionSort_rank s es,
    rankedEntries_forall2 embed preferences profileSkills resumeVector
      jobs es h⟩
  simp only [rankJobs, h, Bind.bind, Except.bind]

theorem claim6_rank_sorted_stable_amended_witness :
    rankedEntries embedNone [jobA6, jobB6] prefsRole [] (some [1, 0, 0]) =
      .ok [⟨jobA6, 10, ["Matches preferred role focus"]⟩,
        ⟨jobB6, 10, ["Matches preferred role focus", "Resume alignment 0%"]⟩]
    ∧ (rankJobs embedNone [jobA6, jobB6] prefsRole [] (some [1, 0, 0]) =
        .ok (([⟨jobA6, 10, ["Matches preferred role focus"]⟩,
          ⟨jobB6, 10, ["Matches preferred role focus",
            "Resume alignment 0%"]⟩] :
          List RankedEntry).insertionSort rankLe)
      ∧ List.Sorted rankLe (([⟨jobA6, 10, ["Matches preferred role focus"]⟩,
          ⟨jobB6, 10, ["Matches preferred role focus",
            "Resume alignment 0%"]⟩] :
          List RankedEntry).insertionSort rankLe)
      ∧ (∀ s : ℚ, (([⟨jobA6, 10, ["Matches preferred role focus"]⟩,
          ⟨jobB6, 10, ["Matches preferred role focus",
            "Resume alignment 0%"]⟩] :
          List RankedEntry).insertionSort rankLe).filter
            (fun e => decide (e.score = s)) =
          ([⟨jobA6, 10, ["Matches preferred role focus"]⟩,
            ⟨jobB6, 10, ["Matches preferred role focus",
              "Resume alignment 0%"]⟩] :
            List RankedEntry).filter (fun e => decide (e.score = s)))
      ∧ List.Forall₂ (fun j e =>
          entryFor embedNone prefsRole [] (some [1, 0, 0]) j = .ok e)
          [jobA6, jobB6]
          [⟨jobA6, 10, ["Matches preferred role focus"]⟩,
            ⟨jobB6, 10, ["Matches preferred role focus",
              "Resume alignment 0%"]⟩]) :=
  ⟨rankedEntries_A6B6,
    claim6_rank_sorted_stable_amended embedNone [jobA6, jobB6] prefsRole []
      (some [1, 0, 0]) _ rankedEntries_A6B6⟩

/-- A job with no cached embedding and a non-empty text, forcing a provider
call. -/
def jobBad1 : Job := ⟨"T", "", "", "", [], [], [], none, none⟩

/-- A job with a cached embedding, rankable without the provider. -/
def jobOk1 : Job := ⟨"", "", "", "", [], [], [], none, some [-1]⟩

/-- A job with no cached embedding and empty text: `_embed_text` returns
`None` without consulting the provider. -/
def jobNT1 : Job := ⟨"", "", "", "", [], [], [], none, none⟩

/-- An embedding provider that always raises. -/
def embedBoom : List String → Except PyErr (List (List ℝ)) :=
  fun _ => .error (.providerError "boom")

lemma cos_1_neg1 : cosineSimilarity [(1 : ℝ)] [-1] = -1 := by
  rw [cosineSimilarity_comm, cos_negone_one]

lemma clamp00 : clampedTotal 0 (((0 : ℚ) : ℝ)) = 0 := by
  unfold clampedTotal
  push_cast
  rw [zero_add, max_eq_right (by norm_num : (0 : ℝ) ≤ 0),
    min_eq_right (by norm_num : (0 : ℝ) ≤ 100)]

lemma pyRound2R_0 : pyRound2R (0 : ℝ) = 0 := by
  rw [pyRound2R, show (100 : ℝ) * 0 = ((0 : ℤ) : ℝ) by norm_num,
    pyRoundR_intCast]
  norm_num

lemma entryFor_ok1 : entryFor embedBoom prefsEmpty [] (some [1]) jobOk1 =
    .ok ⟨jobOk1, 0, []⟩ := by
  have hpr : evaluatePreferences jobOk1 prefsEmpty [] = ((0 : ℚ), []) := rfl
  have hens : ensureJobEmbedding embedBoom jobOk1 = .ok (some [-1]) := rfl
  simp only [entryFor, hpr, hens, Bind.bind, Except.bind, List.isEmpty_cons,
    Bool.not_false, if_true, cos_1_neg1]
  rw [if_neg (by norm_num : ¬ ((0 : ℝ) < -1))]
  rw [clamp00, pyRound2R_0]

/-- C1 counterexample: with two jobs of which the first needs an embedding
and the provider raises, the whole ranking call fails — even though the
second job, which ranks fine on its own, is in the batch.  A single job's
embedding failure aborts the batch instead of degrading to
`sim_score = 0`. -/
theorem claim1_failure_isolation_cex :
    rankJobs embedBoom [jobBad1, jobOk1] prefsEmpty [] (some [1]) =
      .error (.providerError "boom")
    ∧ rankJobs embedBoom [jobOk1] prefsEmpty [] (some [1]) =
      .ok [⟨jobOk1, 0, []⟩] := by
  constructor
  · rfl
  · simp only [rankJobs, rankedEntries, entryFor_ok1, Bind.bind,
      Except.bind]
    rfl

lemma entryFor_ok_of_ensure
    (embed : List String → Except PyErr (List (List ℝ)))
    (preferences : PreferencePayload) (profileSkills : List String)
    (resumeVector : Option (List ℝ)) (j : Job)
    (h : ∃ v, ensureJobEmbedding embed j = .ok v) :
    ∃ e, entryFor embed preferences profileSkills resumeVector j = .ok e
    := by
  obtain ⟨v, hv⟩ := h
  unfold entryFor
  cases resumeVector with
  | none => exact ⟨_, rfl⟩
  | some rvec =>
      cases hb : rvec.isEmpty with
      | true =>
          simp only [hb, Bool.not_true, if_false]
          exact ⟨_, rfl⟩
      | false =>
          simp only [hb, Bool.not_false, if_true, hv, Bind.bind,
            Except.bind]
          cases v with
          | none => exact ⟨_, rfl⟩
          | some jvec =>
              cases hj : jvec.isEmpty with
              | true =>
                  simp only [hj, Bool.not_true, if_false]
                  exact ⟨_, rfl⟩
              | false =>
                  simp only [hj, Bool.not_false, if_true]
                  by_cases hc : (0 : ℝ) < cosineSimilarity rvec jvec
                  · rw [if_pos hc]
                    exact ⟨_, rfl⟩
                  · rw [if_neg hc]
                    exact ⟨_, rfl⟩

lemma rankedEntries_ok_of_ensure
    (embed : List String → Except PyErr (List (List ℝ)))
    (preferences : PreferencePayload) (profileSkills : List String)
    (resumeVector : Option (List ℝ)) :
    ∀ jobs : List Job,
      (∀ j ∈ jobs, ∃ v, ensureJobEmbedding embed j = .ok v) →
      ∃ es, rankedEntries embed jobs preferences profileSkills resumeVector
        = .ok es ∧ es.length = jobs.length := by
  intro jobs
  induction jobs with
  | nil => exact fun _ => ⟨[], rfl, rfl⟩
  | cons j rest ih =>
      intro h
      obtain ⟨e, he⟩ := entryFor_ok_of_ensure embed preferences
        profileSkills resumeVector j (h j (List.mem_cons_self j rest))
      obtain ⟨es, hes, hlen⟩ := ih fun j2 hj2 =>
        h j2 (List.mem_cons_of_mem j hj2)
      refine ⟨e :: es, ?_, by simp [hlen]⟩
      simp only [rankedEntries, he, hes, Bind.bind, Except.bind]

/-- C1 amended: the ranking call completes whenever no per-job embedding
step raises: if every job's `_ensure_job_embedding` returns (possibly with
no vector), `_rank_jobs` returns a ranked list with one entry per job, and
a job whose embedding step yields no vector falls back to `sim_score = 0`
(its entry is scored from the preference signal alone).  An exception from
a single job's embedding step, however, propagates and aborts the whole
call (see the counterexample). -/
theorem claim1_failure_isolation_amended
    (embed : List String → Except PyErr (List (List ℝ)))
    (jobs : List Job) (preferences : PreferencePayload)
    (profileSkills : List String) (resumeVector : Option (List ℝ))
    (h : ∀ j ∈ jobs, ∃ v, ensureJobEmbedding embed j = .ok v) :
    (∃ es, rankedEntries embed jobs preferences profileSkills resumeVector
        = .ok es
      ∧ rankJobs embed jobs preferences profileSkills resumeVector =
        .ok (es.insertionSort rankLe)
      ∧ es.length = jobs.length)
    ∧ (∀ j ∈ jobs, ensureJobEmbedding embed j = .ok none →
        entryFor embed preferences profileSkills resumeVector j =
          .ok ⟨j, pyRound2R (clampedTotal 0
            (((evaluatePreferences j preferences profileSkills).1 : ℝ))),
            (evaluatePreferences j preferences profileSkills).2⟩) := by
  constructor
  · obtain ⟨es, hes, hlen⟩ := rankedEntries_ok_of_ensure embed preferences
      profileSkills resumeVector jobs h
    refine ⟨es, hes, ?_, hlen⟩
    simp only [rankJobs, hes, Bind.bind, Except.bind]
  · intro j _ hnone
    unfold entryFor
    cases resumeVector with
    | none => rfl
    | some rvec =>
        cases hb : rvec.isEmpty with
        | true => simp [hb]
        | false =>
            simp only [hb, Bool.not_false, if_true, hnone, Bind.bind,
              Except.bind]

theorem claim1_failure_isolation_amended_witness :
    (∀ j ∈ [jobNT1], ∃ v,
      ensureJobEmbedding embedBoom j = .ok v)
    ∧ ((∃ es, rankedEntries embedBoom [jobNT1] prefsEmpty [] (some [1])
          = .ok es
        ∧ rankJobs embedBoom [jobNT1] prefsEmpty [] (some [1]) =
          .ok (es.insertionSort rankLe)
        ∧ es.length = [jobNT1].length)
      ∧ (∀ j ∈ [jobNT1], ensureJobEmbedding embedBoom j = .ok none →
          entryFor embedBoom prefsEmpty [] (some [1]) j =
            .ok ⟨j, pyRound2R (clampedTotal 0
              (((evaluatePreferences j prefsEmpty []).1 : ℝ))),
              (evaluatePreferences j prefsEmpty []).2⟩)) := by
  have hens : ∀ j ∈ [jobNT1], ∃ v,
      ensureJobEmbedding embedBoom j = .ok v := by
    intro j hj
    simp only [List.mem_singleton] at hj
    subst hj
    exact ⟨none, rfl⟩
  exact ⟨hens, claim1_failure_isolation_amended embedBoom [jobNT1]
    prefsEmpty [] (some [1]) hens⟩

/-- A user profile as read by the fit path. -/
structure Profile where
  user_id : String
  skills : List String

/-- The per-(user, job) fit-cache payload (`resume_score_cache`).  Times are
modelled in hours. -/
structure FitPayload where
  score : ℤ
  summary : String
  matched : List String
  gaps : List String
  last_calculated : Option ℚ
  updated_at : Option ℚ

/-- The backing document store: profiles by user id, jobs by id, fit-cache
entries by (user, job). -/
structure Store where
  profiles : String → Option Profile
  jobs : String → Option Job
  fitCache : String → String → Option FitPayload

/-- A 24-character hex string, as `bson.ObjectId` accepts. -/
def isValidObjectId (s : String) : Bool :=
  s.length = 24 && s.data.all fun c =>
    c.isDigit || ("a" ≤ c.toString && c.toString ≤ "f")
      || ("A" ≤ c.toString && c.toString ≤ "F")

/-- `get_job_detail` from `recommendation_service.py`: `None` on an invalid
ObjectId or a missing record. -/
def getJobDetail (jobId : String) (st : Store) : Option Job :=
  if isValidObjectId jobId then st.jobs jobId else none

/-- `cache_resume_score` from `recommendation_service.py`: store the payload
with `updated_at` set to now under `(user_id, job_id)` (upsert). -/
def cacheResumeScore (userId jobId : String) (payload : FitPayload)
    (now : ℚ) (st : Store) : Store :=
  { st with fitCache := fun u j =>
      if u = userId ∧ j = jobId then
        some { payload with updated_at := some now }
      else st.fitCache u j }

/-- The attributes of the `recommendation_service` module that
`resume_fit_service` calls.  A field is `none` exactly when
`recommendation_service.py` defines no function of that name: the module
defines `_ensure_resume_embedding`, `_ensure_job_embedding`,
`get_job_detail` and `cache_resume_score`, but no
`get_cached_resume_score`, `get_resume_embedding` or
`get_job_embedding`. -/
structure RecommendationServiceModule where
  get_cached_resume_score :
    Option (String → String → Store → Except PyErr (Option FitPayload))
  get_resume_embedding :
    Option (Profile → Store → Except PyErr (Option (List ℝ)))
  get_job_embedding :
    Option (Job → Store → Except PyErr (Option (List ℝ)))
  get_job_detail : Option (String → Store → Option Job)
  cache_resume_score :
    Option (String → String → FitPayload → ℚ → Store → Store)

/-- The `recommendation_service` module as imported by
`resume_fit_service.py`. -/
def recommendationServiceModule : RecommendationServiceModule where
  get_cached_resume_score := none
  get_resume_embedding := none
  get_job_embedding := none
  get_job_detail := some getJobDetail
  cache_resume_score := some cacheResumeScore

/-- Python attribute lookup on a module: `AttributeError` when the module
has no such attribute. -/
def moduleAttr {α : Type} (name : String) (f : Option α) :
    Except PyErr α :=
  match f with
  | some g => .ok g
  | none => .error (.attributeError name)

/-- `_collect_profile_skills`. -/
def collectProfileSkills (p : Profile) : List String :=
  p.skills

/-- `_normalize_skill_set`: keep the first occurrence of each trimmed,
case-insensitively distinct, non-empty skill. -/
def normalizeSkillSet (values : List String) : List String :=
  values.foldl
    (fun unique item =>
      let cleaned := pyStrip item
      if cleaned ≠ "" ∧
          ¬ (unique.map pyLower).contains (pyLower cleaned) = true then
        unique ++ [cleaned]
      else unique)
    []

/-- `_skill_overlap` on already-normalized lists (case-insensitively
distinct): matched keeps the profile-side casing, gaps the job-side casing,
both sorted. -/
def skillOverlapFit (profileSkills jobSkills : List String) :
    List String × List String :=
  (pySortStrings (profileSkills.filter
      fun p => (jobSkills.map pyLower).contains (pyLower p)),
    pySortStrings (jobSkills.filter
      fun j => !((profileSkills.map pyLower).contains (pyLower j))))

/-- `compute_resume_fit` from `resume_fit_service.py`.  After loading the
profile it calls `recommendation_service.get_resume_embedding` and
`recommendation_service.get_job_embedding` through module attribute lookup;
the remainder of the body is transcribed as dead code behind those
lookups. -/
noncomputable def computeResumeFit (userId : String) (job : Job)
    (st : Store) (now : ℚ) : Except PyErr FitPayload :=
  match st.profiles userId with
  | none => .error (.valueError "Profile not found for resume scoring")
  | some profile => do
      let getResumeEmbedding ← moduleAttr "get_resume_embedding"
        recommendationServiceModule.get_resume_embedding
      let resumeVector ← getResumeEmbedding profile st
      let getJobEmbedding ← moduleAttr "get_job_embedding"
        recommendationServiceModule.get_job_embedding
      let jobVector ← getJobEmbedding job st
      let similarity : ℝ :=
        match resumeVector, jobVector with
        | some rv, some jv =>
            if !rv.isEmpty && !jv.isEmpty then
              max 0 (cosineSimilarity rv jv)
            else 0
        | _, _ => 0
      let profileSkills := normalizeSkillSet (collectProfileSkills profile)
      let jobSkills := normalizeSkillSet job.skills
      let overlap := skillOverlapFit profileSkills jobSkills
      let matchShare : ℚ :=
        if jobSkills ≠ [] then
          (overlap.1.length : ℚ) / (jobSkills.length : ℚ)
        else 0
      let score : ℤ := pyRoundR (similarity * 60 + ((matchShare : ℝ)) * 40)
      let summaryBits : List String :=
        (if similarity ≠ 0 then
          ["Overall similarity " ++ toString (pyTrunc (similarity * 100))
            ++ "%"] else [])
        ++ (if overlap.1 ≠ [] then
          ["Matched skills: " ++ String.intercalate ", " overlap.1] else [])
        ++ (if overlap.2 ≠ [] then
          ["Consider highlighting: " ++
            String.intercalate ", " (overlap.2.take 5)] else [])
      let summaryBits :=
        if summaryBits = [] then
          ["No direct overlap detected; tailor your resume to highlight relevant skills."]
        else summaryBits
      .ok { score := min 100 (max 0 score),
            summary := (String.intercalate " | " summaryBits).take 400,
            matched := overlap.1,
            gaps := overlap.2,
            last_calculated := some now,
            updated_at := none }

/-- The recompute-and-write-back path of `get_or_create_resume_fit`:
load the job (ValueError when absent), compute the fit, store it through
`recommendation_service.cache_resume_score`. -/
noncomputable def getOrCreateRecompute (userId jobId : String) (st : Store)
    (now : ℚ) : Except PyErr (FitPayload × Store) := do
  let getDetail ← moduleAttr "get_job_detail"
    recommendationServiceModule.get_job_detail
  match getDetail jobId st with
  | none => .error (.valueError "Job not found")
  | some job => do
      let payload ← computeResumeFit userId job st now
      let cacheFn ← moduleAttr "cache_resume_score"
        recommendationServiceModule.cache_resume_score
      .ok (payload, cacheFn userId jobId payload now st)

/-- `get_or_create_resume_fit` from `resume_fit_service.py`: consult the
cache through `recommendation_service.get_cached_resume_score`; a fresh
entry (timestamp younger than 24 hours) is returned unchanged, otherwise
recompute and write back. -/
noncomputable def getOrCreateResumeFit (userId jobId : String) (st : Store)
    (now : ℚ) : Except PyErr (FitPayload × Store) := do
  let getCached ← moduleAttr "get_cached_resume_score"
    recommendationServiceModule.get_cached_resume_score
  let cached ← getCached userId jobId st
  match cached with
  | some entry =>
      match entry.updated_at <|> entry.last_calculated with
      | some t =>
          if now - t < 24 then .ok (entry, st)
          else getOrCreateRecompute userId jobId st now
      | none => getOrCreateRecompute userId jobId st now
  | none => getOrCreateRecompute userId jobId st now

/-- C10: both fit-path entry points raise before producing any result:
`get_or_create_resume_fit` always fails with
`AttributeError: get_cached_resume_score` (its first statement), and
`compute_resume_fit` fails with `ValueError` when the profile is missing
and with `AttributeError: get_resume_embedding` otherwise — none of the
three functions it needs exists in `recommendation_service`. -/
theorem claim10_fit_cache_always_raises :
    (∀ (userId jobId : String) (st : Store) (now : ℚ),
      getOrCreateResumeFit userId jobId st now =
        .error (.attributeError "get_cached_resume_score"))
    ∧ (∀ (userId : String) (job : Job) (st : Store) (now : ℚ),
      computeResumeFit userId job st now =
        (match st.profiles userId with
          | none =>
              .error (.valueError "Profile not found for resume scoring")
          | some _ => .error (.attributeError "get_resume_embedding"))) := by
  constructor
  · intro userId jobId st now
    rfl
  · intro userId job st now
    unfold computeResumeFit
    cases st.profiles userId with
    | none => rfl
    | some p => rfl

/-- A store holding a fresh fit-cache entry for `("u1", "j1")` (written one
hour before `now = 11`). -/
def storeC2 : Store :=
  ⟨fun _ => none, fun _ => none,
    fun u j => if u = "u1" ∧ j = "j1" then
      some ⟨50, "cached summary", ["python"], [], none, some 10⟩
    else none⟩

/-- C2: the claimed cache behaviour cannot occur: even with a fresh entry
stored for `("u1", "j1")` one hour old, the call raises
`AttributeError: get_cached_resume_score` at its first statement, because
`recommendation_service` defines no such function.  The claimed TTL logic
is transcribed in `getOrCreateResumeFit` but sits behind the failing
attribute lookup. -/
theorem claim2_fit_cache_code_bug :
    getOrCreateResumeFit "u1" "j1" storeC2 11 =
      .error (.attributeError "get_cached_resume_score") := rfl

end JobAssist



















